import Mathlib

/-!
# bintail: a shallow embedding of `bintail.cc`

`bintail <filename> [start-offset]` follows a growing file and relays the
bytes appended to it to standard output.

## Modelling choices

* The kernel is split in two.  What the program itself determines lives in
  `World`: the descriptor table (path, mode and I/O position of every open
  descriptor), `errno`, the bytes accepted by standard output, the lines
  written to standard error and counters of the system calls made so far.
  What the outside decides is supplied by an environment `Env`, indexed by
  call number: the size reported by each `fstat`, whether each `open`
  succeeds, the data each `read` delivers, how many bytes each `write`
  accepts and what each `select` reports.
* A system call that fails stores its error code in `errno`; a system call
  that succeeds leaves `errno` untouched (no POSIX function sets `errno` to 0,
  so a value left by a failed call stays non-zero until the program clears it,
  which `bintail.cc` never does).  `lseek` fails with `EBADF` on a descriptor
  that is not open and with `EINVAL` when the resulting offset would be
  negative; an offset beyond the end of the file is accepted.
* `exit(1)` is modelled by the result `Res.exit 1`; nothing runs afterwards.
* `off_t` is a signed 64-bit integer: the one addition the program performs
  on it (`relseek`) is reduced with `wrapOff`.  `int` counters hold values
  bounded by the buffer size and are plain integers.
* `main` never returns.  It is embedded as a transition function `step` on
  the control points of its loops (`Phase`), started by `start`, which is the
  code of `main` up to the first loop.
-/

namespace Bintail

/-! ## Constants -/

abbrev Byte := Nat

/-- Buffer size, `const unsigned int BUFSZ = 1 * 1024`. -/
def BUFSZ : Nat := 1 * 1024

def ENOENT : Int := 2
def EINTR : Int := 4
def EIOERR : Int := 5
def EBADF : Int := 9
def EINVAL : Int := 22
def EMFILE : Int := 24
def EPIPE : Int := 32

def SEEK_SET : Nat := 0
def SEEK_CUR : Nat := 1
def O_RDONLY : Nat := 0

/-- Size of the descriptor table of the process. -/
def OPEN_MAX : Nat := 1024

/-- Two's complement reduction of an integer to the range of `off_t`. -/
def wrapOff (x : Int) : Int :=
  (x + 9223372036854775808) % 18446744073709551616 - 9223372036854775808

/-! ## The world and its environment -/

/-- An open file description: the path and mode it was opened with and its
current I/O position. -/
structure OpenFile where
  path : String
  mode : Nat
  pos : Int
deriving DecidableEq, Repr

/-- The part of the machine state that the program determines. -/
structure World where
  /-- Value of the C variable `errno`. -/
  errno : Int
  /-- Descriptor table. -/
  fds : Nat → Option OpenFile
  /-- Bytes accepted so far by standard output, in order. -/
  out : List Byte
  /-- Lines written so far to standard error. -/
  err : List String
  /-- Return value of every `write` call made so far, in order. -/
  writes : List Int
  /-- Number of `fstat` calls answered by the environment so far. -/
  nstat : Nat
  /-- Number of `open` calls made so far. -/
  nopen : Nat
  /-- Number of `read` calls answered by the environment so far. -/
  nread : Nat
  /-- Number of `select` calls made so far. -/
  nselect : Nat
  /-- Microseconds spent in `usleep` so far. -/
  slept : Nat

/-- The part of the machine state that the outside decides. -/
structure Env where
  /-- Answer to the k-th `fstat`: `none` is a failure, `some s` the size. -/
  stat : Nat → Option Int
  /-- Whether the k-th `open` finds the file. -/
  opens : Nat → Bool
  /-- Answer to the k-th `read`, made at file offset `pos`: `none` is a
  failure, `some d` the data available from that offset on. -/
  read : Nat → Int → Option (List Byte)
  /-- Return value of the k-th `write` when asked to write `count` bytes. -/
  write : Nat → Int → Int
  /-- Answer to the k-th `select`: its return value and whether the followed
  file is in the resulting read set. -/
  select : Nat → Int × Bool

/-- The end of the process: the status passed to `exit` and the world at
that moment. -/
structure Exit where
  code : Nat
  w : World

/-- Outcome of a function that may call `exit`. -/
inductive Res (α : Type) where
  | ok (a : α) (w : World)
  | exit (e : Exit)

/-- Descriptor table entry of `fd`, if `fd` is an open descriptor. -/
def lookupFd (w : World) (fd : Int) : Option OpenFile :=
  if fd < 0 then none else w.fds fd.toNat

/-- Descriptor table with the entry of `fd` replaced. -/
def setFd (fds : Nat → Option OpenFile) (fd : Nat) (f : Option OpenFile) :
    Nat → Option OpenFile :=
  fun k => if k = fd then f else fds k

/-- Lowest unused descriptor. -/
def freeFd (w : World) : Option Nat :=
  (List.range OPEN_MAX).find? (fun k => (w.fds k).isNone)

/-! ## System calls -/

/-- The call `lseek(fd, off, whence)` for `SEEK_SET` and `SEEK_CUR`.  Offsets
are not bounded above: the largest offset a file system accepts (beyond which
the kernel answers `EINVAL`) is not modelled. -/
def sys_lseek (w : World) (fd : Int) (off : Int) (whence : Nat) : Int × World :=
  match lookupFd w fd with
  | none => (-1, { w with errno := EBADF })
  | some f =>
    if whence = SEEK_SET ∨ whence = SEEK_CUR then
      let target := if whence = SEEK_SET then off else f.pos + off
      if target < 0 then (-1, { w with errno := EINVAL })
      else (target, { w with fds := setFd w.fds fd.toNat (some { f with pos := target }) })
    else (-1, { w with errno := EINVAL })

/-- The call `fstat(fd, &sb)`: `some s` stands for return value 0 with
`sb.st_size = s`, `none` for a non-zero return value with `sb` untouched. -/
def sys_fstat (env : Env) (w : World) (fd : Int) : Option Int × World :=
  match lookupFd w fd with
  | none => (none, { w with errno := EBADF })
  | some _ =>
    match env.stat w.nstat with
    | some s => (some s, { w with nstat := w.nstat + 1 })
    | none => (none, { w with errno := EIOERR, nstat := w.nstat + 1 })

/-- The call `close(fd)`. -/
def sys_close (w : World) (fd : Int) : Int × World :=
  match lookupFd w fd with
  | none => (-1, { w with errno := EBADF })
  | some _ => (0, { w with fds := setFd w.fds fd.toNat none })

/-- The call `open(path, mode)`. -/
def sys_open (env : Env) (w : World) (path : String) (mode : Nat) : Int × World :=
  if env.opens w.nopen then
    match freeFd w with
    | some fd =>
      (fd, { w with fds := setFd w.fds fd (some { path := path, mode := mode, pos := 0 }),
                    nopen := w.nopen + 1 })
    | none => (-1, { w with errno := EMFILE, nopen := w.nopen + 1 })
  else (-1, { w with errno := ENOENT, nopen := w.nopen + 1 })

/-- The call `read(fd, buffer, count)`: returns the count and the buffer
with the bytes read stored at its start. -/
def sys_read (env : Env) (w : World) (fd : Int) (buffer : List Byte) (count : Nat) :
    Int × List Byte × World :=
  match lookupFd w fd with
  | none => (-1, buffer, { w with errno := EBADF })
  | some f =>
    match env.read w.nread f.pos with
    | none => (-1, buffer, { w with errno := EIOERR, nread := w.nread + 1 })
    | some d =>
      let chunk := d.take count
      (chunk.length, chunk ++ buffer.drop chunk.length,
        { w with fds := setFd w.fds fd.toNat (some { f with pos := f.pos + chunk.length }),
                 nread := w.nread + 1 })

/-- The call `write(1, buffer, count)` on standard output. -/
def sys_write (env : Env) (w : World) (buffer : List Byte) (count : Int) : Int × World :=
  let r := env.write w.writes.length count
  if r < 0 then (-1, { w with errno := EPIPE, writes := w.writes ++ [-1] })
  else (r, { w with out := w.out ++ (buffer.take count.toNat).take r.toNat,
                    writes := w.writes ++ [r] })

/-- The call `select(n, &rdset, 0, 0, 0)` with the followed file and standard
input in `rdset`: returns its value and whether the file is in the set. -/
def sys_select (env : Env) (w : World) : Int × Bool × World :=
  let r := env.select w.nselect
  if r.1 < 0 then (r.1, r.2, { w with errno := EINTR, nselect := w.nselect + 1 })
  else (r.1, r.2, { w with nselect := w.nselect + 1 })

/-- The call `usleep(us)`. -/
def usleep (us : Nat) (w : World) : World :=
  { w with slept := w.slept + us }

/-- Writing one line to `cerr`. -/
def cerr (line : String) (w : World) : World :=
  { w with err := w.err ++ [line] }

/-- The library function `strerror`. -/
def strerror (e : Int) : String :=
  if e = 0 then "Success"
  else if e = ENOENT then "No such file or directory"
  else if e = EINTR then "Interrupted system call"
  else if e = EIOERR then "Input/output error"
  else if e = EBADF then "Bad file descriptor"
  else if e = EINVAL then "Invalid argument"
  else if e = EMFILE then "Too many open files"
  else if e = EPIPE then "Broken pipe"
  else "Unknown error"

/-- Digits of `atol`: accumulates decimal digits until the first other
character. -/
def atolDigits : List Char → Int → Int
  | [], acc => acc
  | c :: cs, acc =>
    if c.isDigit then atolDigits cs (acc * 10 + ((c.toNat : Int) - 48)) else acc

/-- The library function `isspace` in the C locale: space, and the control
characters from horizontal tab (9) to carriage return (13). -/
def isspace (c : Char) : Bool :=
  c.toNat = 32 || (9 ≤ c.toNat && c.toNat ≤ 13)

/-- The library function `atol` (values outside the range of `long` are not
modelled). -/
def atol (s : String) : Int :=
  match s.data.dropWhile isspace with
  | '-' :: r => - atolDigits r 0
  | '+' :: r => atolDigits r 0
  | cs => atolDigits cs 0

/-! ## The functions of `bintail.cc` -/

/-- Function `usage()`: display help on how to run the program. -/
def usage (w : World) : Exit :=
  { code := 1, w := cerr "Usage: bintail <filename>" w }

/-- Function `ioerror()`: invoked upon fatal I/O error. -/
def ioerror (s m : String) (w : World) : Exit :=
  if s.isEmpty then
    { code := 1, w := cerr ("bintail: I/O error: " ++ m) w }
  else
    { code := 1, w := cerr ("bintail: I/O error while tailing '" ++ s ++ "': " ++ m) w }

/-- Function `badfile()`: invoked upon fatal error opening file. -/
def badfile (s m : String) (w : World) : Exit :=
  { code := 1, w := cerr ("bintail: could not open file '" ++ s ++ "': " ++ m) w }

/-- Function `fsize(fd)`: determine size of file associated with fd. -/
def fsize (env : Env) (fd : Int) (w : World) : Res Int :=
  match sys_fstat env w fd with
  | (none, w1) => .exit (ioerror "" (strerror w1.errno) w1)
  | (some st_size, w1) => .ok st_size w1

/-- Function `ltell(fd)`: return current I/O position within file `fd`.
The test after the call is on `errno`, not on the value `lseek` returned. -/
def ltell (fd : Int) (w : World) : Res Int :=
  match sys_lseek w fd 0 SEEK_CUR with
  | (pos, w1) =>
    if w1.errno ≠ 0 then .exit (ioerror "" (strerror w1.errno) w1)
    else .ok pos w1

/-- Function `absseek()`: seek to requested byte offset within the file. -/
def absseek (env : Env) (fd : Int) (howfar : Int) (w : World) : Res Int :=
  match fsize env fd w with
  | .exit e => .exit e
  | .ok edge w1 =>
    let where_ := howfar
    let where_ := if where_ < 0 then 0 else where_
    let where_ := if where_ > edge then edge else where_
    match sys_lseek w1 fd where_ SEEK_SET with
    | (r, w2) => .ok r w2

/-- Function `relseek()`: seek to position relative to current position. -/
def relseek (env : Env) (fd : Int) (howfar : Int) (w : World) : Res Int :=
  match ltell fd w with
  | .exit e => .exit e
  | .ok now w1 =>
    match fsize env fd w1 with
    | .exit e => .exit e
    | .ok edge w2 =>
      let where_ := wrapOff (now + howfar)
      let where_ := if where_ < 0 then 0 else where_
      let where_ := if where_ > edge then edge else where_
      match sys_lseek w2 fd where_ SEEK_SET with
      | (r, w3) => .ok r w3

/-- Function `reopen(...)`: reopen a file descriptor, preserving location. -/
def reopen (env : Env) (fd : Int) (fn : String) (md : Nat) (w : World) : Res Int :=
  match ltell fd w with
  | .exit e => .exit e
  | .ok pos w1 =>
    match sys_close w1 fd with
    | (_, w2) =>
      match sys_open env w2 fn md with
      | (fd, w3) =>
        if fd < 0 then .exit (badfile fn (strerror w3.errno) w3)
        else
          match sys_lseek w3 fd pos SEEK_SET with
          | (_, w4) => .ok fd w4

/-! ## The function `main` as a transition system -/

/-- Control points of `main`: the head of the size-polling loop
(Idle-Polling), the statements between the polling loop and the drain loop
(Growth-Detected), the head of the drain loop and the head of the write-all
loop (both Draining), and the end of the process. -/
inductive Phase where
  | polling
  | growth
  | draining
  | writing
  | exited (code : Nat)
deriving DecidableEq, Repr

/-- The local variables of `main` together with the world. -/
structure State where
  phase : Phase
  /-- The path `argv[1]`. -/
  fn : String
  input : Int
  n : Int
  written : Int
  buffer : List Byte
  lastsize : Int
  /-- The field `sb.st_size`. -/
  sb_size : Int
  pos : Int
  w : World

/-- The warning printed when `fstat` fails. -/
def fstatWarning (w : World) : String :=
  "bintail: fstat() failed (" ++ strerror w.errno ++ "), tailing may not work."

/-- The state in which a call to `exit` leaves the process. -/
def exitState (s : State) (e : Exit) : State :=
  { s with phase := .exited e.code, w := e.w }

/-- The code of `main` before its first loop: argument check, `open`, the
seek to the starting offset and the initial `fstat`. -/
def start (env : Env) (argv : List String) (w : World) : State :=
  let argc := argv.length
  let fn := argv.getD 1 ""
  let s0 : State :=
    { phase := .polling, fn := fn, input := -1, n := 1, written := 0,
      buffer := List.replicate BUFSZ 0, lastsize := 0, sb_size := 0, pos := 0, w := w }
  if argc < 2 ∨ argc > 3 then exitState s0 (usage w)
  else
    match sys_open env w fn O_RDONLY with
    | (input, w1) =>
      if input < 0 then exitState s0 (badfile fn (strerror w1.errno) w1)
      else
        let pos : Int := if argc = 3 then atol (argv.getD 2 "") else 0
        match sys_lseek w1 input pos SEEK_SET with
        | (pos, w2) =>
          match sys_fstat env w2 input with
          | (some st_size, w3) =>
            { s0 with input := input, pos := pos, sb_size := st_size, w := w3 }
          | (none, w3) =>
            { s0 with input := input, pos := pos, sb_size := 0,
                      w := usleep 500000 (cerr (fstatWarning w3) w3) }

/-- One transition of `main` from a control point to the next one. -/
def step (env : Env) (s : State) : State :=
  match s.phase with
  | .polling =>
    if s.sb_size = s.lastsize then
      match sys_fstat env s.w s.input with
      | (some st_size, w1) => { s with sb_size := st_size, w := usleep 500000 w1 }
      | (none, w1) => { s with w := usleep 500000 (cerr (fstatWarning w1) w1) }
    else
      { s with lastsize := s.sb_size, phase := .growth }
  | .growth =>
    match reopen env s.input s.fn O_RDONLY s.w with
    | .ok fd w1 => { s with input := fd, w := w1, phase := .draining }
    | .exit e => exitState s e
  | .draining =>
    match sys_select env s.w with
    | (n, isset, w1) =>
      if n > 0 then
        if isset then
          match sys_read env w1 s.input s.buffer BUFSZ with
          | (n, buffer, w2) =>
            if n > 0 then
              { s with n := n, buffer := buffer, w := w2, phase := .writing }
            else if n < 0 then
              exitState { s with n := n, buffer := buffer } (ioerror s.fn (strerror w2.errno) w2)
            else
              { s with n := n, buffer := buffer, w := w2, phase := .polling }
        else { s with n := n, w := w1 }
      else { s with n := n, w := w1 }
  | .writing =>
    if s.n > 0 then
      match sys_write env s.w s.buffer s.n with
      | (written, w1) =>
        if written > 0 then
          { s with written := written, n := s.n - written, w := w1 }
        else if written < 0 then
          exitState { s with written := written } (ioerror s.fn (strerror w1.errno) w1)
        else { s with written := written, w := w1 }
    else { s with phase := .draining }
  | .exited _ => s

/-- The state after `k` transitions. -/
def run (env : Env) : Nat → State → State
  | 0, s => s
  | k + 1, s => run env k (step env s)

/-- The Draining state of the follow loop: the drain loop and the write-all
loop nested in it. -/
def State.inDraining (s : State) : Prop :=
  s.phase = .draining ∨ s.phase = .writing

/-! ## Concrete worlds and environments used by the examples -/

/-- A process with the three standard streams open and `errno` clear. -/
def World.initial : World :=
  { errno := 0,
    fds := fun k =>
      if k = 0 then some { path := "/dev/stdin", mode := 0, pos := 0 }
      else if k = 1 then some { path := "/dev/stdout", mode := 1, pos := 0 }
      else if k = 2 then some { path := "/dev/stderr", mode := 1, pos := 0 }
      else none,
    out := [], err := [], writes := [], nstat := 0, nopen := 0, nread := 0,
    nselect := 0, slept := 0 }

/-- An environment in which a file of `size` bytes with content `data` is
followed: every `fstat` reports `size`, every `open` succeeds, every `read`
delivers the content from the current offset on, every `select` reports the
file readable and the k-th `write` accepts `accept k count` bytes. -/
def Env.static (size : Int) (data : List Byte) (accept : Nat → Int → Int) : Env :=
  { stat := fun _ => some size,
    opens := fun _ => true,
    read := fun _ pos => some (data.drop pos.toNat),
    write := accept,
    select := fun _ => (1, true) }

/-- An environment in which the followed file has `size` bytes at the initial
size check and has grown to the content `data` by the next one: the first
`fstat` reports `size`, the later ones the length of `data`; everything else
is as in `Env.static`, reads delivering `data` from the current offset on. -/
def Env.growing (size : Int) (data : List Byte) (accept : Nat → Int → Int) : Env :=
  { stat := fun k => if k = 0 then some size else some data.length,
    opens := fun _ => true,
    read := fun _ pos => some (data.drop pos.toNat),
    write := accept,
    select := fun _ => (1, true) }

/-- A process that has the followed file `f` open on descriptor 3 at offset
`pos`, with the value `errno` left behind by its earlier system calls. -/
def World.following (pos : Int) (errno : Int) : World :=
  { World.initial with
    errno := errno,
    fds := setFd World.initial.fds 3 (some { path := "f", mode := O_RDONLY, pos := pos }),
    nopen := 1 }

/-- A sink that accepts a single byte at the first write and everything it
is offered afterwards. -/
def acceptOneThenAll (k : Nat) (count : Int) : Int :=
  if k = 0 then 1 else count

/-- A sink that accepts everything it is offered. -/
def acceptAll (_ : Nat) (count : Int) : Int := count

/-- An empty file that stays empty. -/
def emptyFile : Env := Env.static 0 [] acceptAll

/-- A file of 3 bytes. -/
def threeBytes : Env := Env.static 3 [10, 20, 30] acceptAll

/-- A file of 3 bytes, relayed to a sink that accepts one byte per write. -/
def slowSink : Env := Env.static 3 [10, 20, 30] (fun _ _ => 1)

/-- A file of 5 bytes. -/
def fiveBytes : Env := Env.static 5 [1, 2, 3, 4, 5] acceptAll

/-- A file of 10 bytes. -/
def tenBytes : Env := Env.static 10 (List.replicate 10 7) acceptAll

/-- A file of 1000 bytes. -/
def thousandBytes : Env := Env.static 1000 (List.replicate 1000 7) acceptAll

/-- A file of 1000 bytes to which 100 bytes are appended after the initial
size check. -/
def grownBy100 : Env := Env.growing 1000 (List.replicate 1100 7) acceptAll

/-- An empty file to which the bytes 10, 20, 30 are appended after the initial
size check, relayed to a sink that accepts a single byte at the first write. -/
def appendedThree : Env := Env.growing 0 [10, 20, 30] acceptOneThenAll

/-- An empty file to which the bytes 1, 2, 3, 4, 5 are appended after the
initial size check. -/
def grownToFive : Env := Env.growing 0 [1, 2, 3, 4, 5] acceptAll

/-- The same file as in `grownToFive`, except that the first size query of the
polling loop fails: the initial `fstat` reports 0, the next one fails, the
later ones report 5. -/
def failedPoll : Env :=
  { grownToFive with stat := fun k => if k = 0 then some 0 else if k = 1 then none else some 5 }

/-- Exit status of a result, if the function called `exit`. -/
def Res.exitCode {α : Type} : Res α → Option Nat
  | .ok _ _ => none
  | .exit e => some e.code

/-- Value returned, if the function returned. -/
def Res.value {α : Type} : Res α → Option α
  | .ok a _ => some a
  | .exit _ => none

/-- World in which the function returned or called `exit`. -/
def Res.world {α : Type} : Res α → World
  | .ok _ w => w
  | .exit e => e.w

/-- The offset clipped to the file, as the specification defines it. -/
def clip (o s : Int) : Int := max 0 (min o s)

/-! ## Concrete states used by the examples -/

/-- A file of size 0 followed from its start: the state `main` is in when it
first reaches the polling loop. -/
def idleExample : State :=
  start emptyFile ["bintail", "f"] World.initial

/-- A chunk of three bytes at the head of the write-all loop, standard output
empty so far. -/
def writingExample : State :=
  { phase := .writing, fn := "f", input := 3, n := 3, written := 0,
    buffer := [10, 20, 30], lastsize := 3, sb_size := 3, pos := 0, w := World.initial }

/-- A state at the head of the drain loop with nothing left to read. -/
def drainingExample : State :=
  { phase := .draining, fn := "f", input := 3, n := 1, written := 0,
    buffer := [10, 20, 30], lastsize := 3, sb_size := 3, pos := 0,
    w := World.following 3 0 }

/-- The state in which `main` reaches its polling loop when started as
`bintail f -50` on a file of 1000 bytes. -/
def negativeStart : State :=
  start thousandBytes ["bintail", "f", "-50"] World.initial

/-- The state in which `main` reaches its polling loop when started as
`bintail f 2000` on a file of 1000 bytes to which 100 bytes are appended
afterwards. -/
def beyondStart : State :=
  start grownBy100 ["bintail", "f", "2000"] World.initial

/-- The state in which `main` reaches its polling loop when started as
`bintail f` on an empty file to which the bytes 10, 20, 30 are appended
afterwards, the output sink accepting a single byte at the first write. -/
def partialStart : State :=
  start appendedThree ["bintail", "f"] World.initial

/-- The state in which `main` reaches its polling loop when started as
`bintail f` on an empty file. -/
def emptyStart : State :=
  start grownToFive ["bintail", "f"] World.initial

/-- The state in which `main` reaches its polling loop when started as
`bintail f` on an empty file whose first size query in the loop will fail. -/
def failedPollStart : State :=
  start failedPoll ["bintail", "f"] World.initial

/-! ## Basic facts about the transition system -/

theorem step_exited (env : Env) (s : State) (c : Nat) (h : s.phase = .exited c) :
    step env s = s := by
  unfold step
  rw [h]

theorem run_exited (env : Env) (k : Nat) (s : State) (c : Nat) (h : s.phase = .exited c) :
    run env k s = s := by
  induction k with
  | zero => rfl
  | succ k ih => rw [run, step_exited env s c h, ih]

theorem run_succ (env : Env) (k : Nat) (s : State) :
    run env (k + 1) s = step env (run env k s) := by
  induction k generalizing s with
  | zero => rfl
  | succ k ih => rw [run, ih (step env s)]; rfl

theorem run_add (env : Env) (a b : Nat) (s : State) :
    run env (a + b) s = run env b (run env a s) := by
  induction a generalizing s with
  | zero => simp [run]
  | succ a ih => rw [Nat.add_right_comm, run, ih, run]

theorem step_polling_same (env : Env) (s : State) (sz : Int) (f : OpenFile)
    (hph : s.phase = .polling) (heq : s.sb_size = s.lastsize)
    (hopen : lookupFd s.w s.input = some f) (hst : env.stat s.w.nstat = some sz) :
    step env s =
      { s with sb_size := sz, w := usleep 500000 { s.w with nstat := s.w.nstat + 1 } } := by
  unfold step
  rw [hph]
  simp only [heq, if_true, sys_fstat, hopen, hst]

/-! ## Idle polling -/

/-- C5. Idempotence of idle polling: from the head of the polling loop with
the sampled size equal to the last-recorded size, `k` consecutive size checks
that each report the last-recorded size leave the loop in Idle-Polling after
exactly those `k` checks, with nothing written to the output sink, the
descriptor table (hence the read position of the handle) unchanged, no
diagnostic printed and the last-recorded size unchanged. -/
theorem idle_polling_idempotent (env : Env) (k : Nat) (s : State) (f : OpenFile)
    (hph : s.phase = .polling) (heq : s.sb_size = s.lastsize)
    (hopen : lookupFd s.w s.input = some f)
    (hsame : ∀ i, i < k → env.stat (s.w.nstat + i) = some s.lastsize) :
    (run env k s).phase = .polling ∧
    (run env k s).w.out = s.w.out ∧
    (run env k s).w.fds = s.w.fds ∧
    lookupFd (run env k s).w (run env k s).input = some f ∧
    (run env k s).lastsize = s.lastsize ∧
    (run env k s).sb_size = s.lastsize ∧
    (run env k s).w.err = s.w.err ∧
    (run env k s).w.nstat = s.w.nstat + k := by
  induction k generalizing s with
  | zero => exact ⟨hph, rfl, rfl, hopen, rfl, heq, rfl, rfl⟩
  | succ k ih =>
    have h0 : env.stat s.w.nstat = some s.lastsize := by simpa using hsame 0 (Nat.succ_pos k)
    have hstep := step_polling_same env s s.lastsize f hph heq hopen h0
    have hnext := ih (step env s) (by rw [hstep]; exact hph) (by rw [hstep])
      (by rw [hstep]; exact hopen)
      (by
        intro i hi
        rw [hstep]
        have := hsame (i + 1) (Nat.succ_lt_succ hi)
        simpa [usleep, Nat.add_assoc, Nat.add_comm 1 i] using this)
    rw [run]
    rw [hstep] at hnext ⊢
    obtain ⟨h1, h2, h3, h4, h5, h6, h7, h8⟩ := hnext
    refine ⟨h1, h2, h3, h4, h5, h6, h7, ?_⟩
    rw [h8]
    simp only [usleep]
    omega

set_option maxRecDepth 100000 in
/-- Witness for C5: four size checks of an empty file that stays empty. -/
theorem idle_polling_idempotent_witness :
    (idleExample.phase = .polling ∧ idleExample.sb_size = idleExample.lastsize ∧
      lookupFd idleExample.w idleExample.input = some { path := "f", mode := 0, pos := 0 }) ∧
    (run emptyFile 4 idleExample).phase = .polling ∧
    (run emptyFile 4 idleExample).w.out = [] ∧
    (run emptyFile 4 idleExample).w.nstat = 5 :=
  have h := idle_polling_idempotent emptyFile 4 idleExample
    { path := "f", mode := 0, pos := 0 } (by decide) (by decide) (by decide)
    (by intro i _; rfl)
  ⟨⟨by decide, by decide, by decide⟩, h.1, h.2.1, h.2.2.2.2.2.2.2⟩

/-! ## Growth detection -/

theorem start_lastsize (env : Env) (argv : List String) (w : World) :
    (start env argv w).lastsize = 0 := by
  unfold start
  simp only []
  split
  · rfl
  · split
    · rfl
    · split <;> rfl

theorem step_polling_ne (env : Env) (s : State) (hph : s.phase = .polling)
    (hne : s.sb_size ≠ s.lastsize) :
    step env s = { s with lastsize := s.sb_size, phase := .growth } := by
  unfold step
  rw [hph]
  simp only [hne, if_false]

theorem step_polling_eq (env : Env) (s : State) (hph : s.phase = .polling)
    (heq : s.sb_size = s.lastsize) :
    step env s =
      match sys_fstat env s.w s.input with
      | (some st_size, w1) => { s with sb_size := st_size, w := usleep 500000 w1 }
      | (none, w1) => { s with w := usleep 500000 (cerr (fstatWarning w1) w1) } := by
  unfold step
  rw [hph]
  simp only [heq, if_true]

theorem sys_fstat_fds (env : Env) (w : World) (fd : Int) :
    (sys_fstat env w fd).2.fds = w.fds ∧ (sys_fstat env w fd).2.out = w.out := by
  unfold sys_fstat
  split
  · exact ⟨rfl, rfl⟩
  · split <;> exact ⟨rfl, rfl⟩

theorem sys_lseek_keeps (w : World) (fd : Int) (off : Int) (whence : Nat) (f : OpenFile)
    (h : lookupFd w fd = some f) :
    (∃ g, lookupFd (sys_lseek w fd off whence).2 fd = some g) ∧
    (sys_lseek w fd off whence).2.nstat = w.nstat := by
  have hnn : ¬ fd < 0 := by
    intro hneg
    simp [lookupFd, hneg] at h
  unfold sys_lseek
  rw [h]
  by_cases hw : whence = SEEK_SET ∨ whence = SEEK_CUR
  · by_cases ht : (if whence = SEEK_SET then off else f.pos + off) < 0
    · constructor
      · exact ⟨f, by simpa [hw, ht, lookupFd] using h⟩
      · simp [hw, ht]
    · constructor
      · exact ⟨{ f with pos := if whence = SEEK_SET then off else f.pos + off },
          by simp [hw, ht, lookupFd, hnn, setFd]⟩
      · simp [hw, ht]
  · constructor
    · exact ⟨f, by simpa [hw, lookupFd] using h⟩
    · simp [hw]

theorem sys_open_ok (env : Env) (w : World) (fn : String) (md : Nat)
    (h : ¬ (sys_open env w fn md).1 < 0) :
    (∃ g, lookupFd (sys_open env w fn md).2 (sys_open env w fn md).1 = some g) ∧
    (sys_open env w fn md).2.nstat = w.nstat := by
  revert h
  unfold sys_open
  cases ho : env.opens w.nopen with
  | false =>
    intro h
    simp at h
  | true =>
    cases hf : freeFd w with
    | none =>
      intro h
      simp at h
    | some j =>
      intro _
      have hj : ¬ ((j : Nat) : Int) < 0 := by omega
      constructor
      · exact ⟨{ path := fn, mode := md, pos := 0 }, by simp [lookupFd, setFd, hj]⟩
      · simp

/-- The size sampled before the polling loop is entered: it differs from the
initial last-recorded size 0 exactly when the initial size query succeeded with
a size other than 0. -/
theorem start_initial_size (env : Env) (argv : List String) (w : World)
    (hp : (start env argv w).phase = .polling) :
    (start env argv w).sb_size ≠ (start env argv w).lastsize ↔
      ∃ sz, env.stat w.nstat = some sz ∧ sz ≠ 0 := by
  rw [start_lastsize]
  unfold start at hp ⊢
  simp only [] at hp ⊢
  by_cases hargc : argv.length < 2 ∨ argv.length > 3
  · simp [hargc, exitState] at hp
  · simp only [hargc, if_false] at hp ⊢
    by_cases hneg : (sys_open env w (argv.getD 1 "") O_RDONLY).1 < 0
    · rw [if_pos hneg] at hp
      simp [exitState] at hp
    · simp only [hneg, if_false] at hp ⊢
      obtain ⟨⟨g, hg⟩, hn1⟩ := sys_open_ok env w (argv.getD 1 "") O_RDONLY hneg
      obtain ⟨⟨g2, hg2⟩, hn2⟩ := sys_lseek_keeps
        (sys_open env w (argv.getD 1 "") O_RDONLY).2
        (sys_open env w (argv.getD 1 "") O_RDONLY).1
        (if argv.length = 3 then atol (argv.getD 2 "") else 0) SEEK_SET g hg
      have hfs : (sys_fstat env (sys_lseek (sys_open env w (argv.getD 1 "") O_RDONLY).2
          (sys_open env w (argv.getD 1 "") O_RDONLY).1
          (if argv.length = 3 then atol (argv.getD 2 "") else 0) SEEK_SET).2
          (sys_open env w (argv.getD 1 "") O_RDONLY).1).1 = env.stat w.nstat := by
        unfold sys_fstat
        rw [hg2, hn2, hn1]
        simp only []
        split <;> simp_all
      split
      · rename_i st w3 heq
        rw [heq] at hfs
        simp only [] at hfs
        rw [← hfs]
        simp
      · rename_i w3 heq
        rw [heq] at hfs
        simp only [] at hfs
        rw [← hfs]
        simp

/-- What the polling loop does.  The last-recorded size starts at 0.  At the
head of the polling loop the loop is left (for Growth-Detected) exactly when
the sampled size differs from the last-recorded size, and on leaving the
last-recorded size becomes the sampled size while the handle is still the old
one, not yet refreshed.  While they are equal a size query is made, and the
sampled size differs afterwards exactly when that query succeeded with a size
different from the last-recorded one, so that the loop is left at its next
test exactly in that case; a failed query changes neither size and leaves the
loop in Idle-Polling at that point and at the next test of the loop condition.
What the error code it leaves in `errno` does later is not part of this
statement. -/
theorem growth_detection (env : Env) (s : State) (hph : s.phase = .polling) :
    (∀ argv w, (start env argv w).lastsize = 0) ∧
    (∀ argv w, (start env argv w).phase = .polling →
      ((start env argv w).sb_size ≠ (start env argv w).lastsize ↔
        ∃ sz, env.stat w.nstat = some sz ∧ sz ≠ 0)) ∧
    ((step env s).phase = .growth ↔ s.sb_size ≠ s.lastsize) ∧
    (s.sb_size ≠ s.lastsize →
      (step env s).lastsize = s.sb_size ∧ (step env s).w.fds = s.w.fds ∧
      (step env s).input = s.input ∧ (step env s).w.nopen = s.w.nopen) ∧
    (s.sb_size = s.lastsize →
      (step env s).phase = .polling ∧ (step env s).lastsize = s.lastsize ∧
      ((step env s).sb_size ≠ (step env s).lastsize ↔
        ∃ sz, (sys_fstat env s.w s.input).1 = some sz ∧ sz ≠ s.lastsize) ∧
      ((run env 2 s).phase = .growth ↔
        ∃ sz, (sys_fstat env s.w s.input).1 = some sz ∧ sz ≠ s.lastsize) ∧
      (∀ sz, (sys_fstat env s.w s.input).1 = some sz → sz ≠ s.lastsize →
        (run env 2 s).lastsize = sz ∧ (run env 2 s).w.fds = s.w.fds ∧
        (run env 2 s).input = s.input) ∧
      ((sys_fstat env s.w s.input).1 = none →
        (step env s).sb_size = s.sb_size ∧ (step env s).w.out = s.w.out ∧
        (step env s).w.fds = s.w.fds ∧ (run env 2 s).phase = .polling)) := by
  have hpoll : ∀ t : State, t.phase = .polling → t.sb_size = t.lastsize →
      (step env t).phase = .polling ∧ (step env t).lastsize = t.lastsize ∧
      (step env t).input = t.input ∧ (step env t).w.fds = t.w.fds ∧
      (step env t).w.out = t.w.out ∧
      (step env t).sb_size = ((sys_fstat env t.w t.input).1).getD t.sb_size := by
    intro t ht h
    rw [step_polling_eq env t ht h]
    have hf := sys_fstat_fds env t.w t.input
    rcases hr : sys_fstat env t.w t.input with ⟨r, w1⟩
    rw [hr] at hf
    cases r with
    | none => exact ⟨ht, rfl, rfl, hf.1, hf.2, rfl⟩
    | some sz => exact ⟨ht, rfl, rfl, hf.1, hf.2, rfl⟩
  have hleave : ∀ t : State, t.phase = .polling →
      ((step env t).phase = .growth ↔ t.sb_size ≠ t.lastsize) := by
    intro t ht
    by_cases h : t.sb_size = t.lastsize
    · have := (hpoll t ht h).1
      simp [this, h]
    · rw [step_polling_ne env t ht h]
      simp [h]
  refine ⟨start_lastsize env, start_initial_size env, hleave s hph, ?_, ?_⟩
  · intro hne
    rw [step_polling_ne env s hph hne]
    exact ⟨rfl, rfl, rfl, rfl⟩
  · intro heq
    obtain ⟨h1, h2, h3, h4, h5, h6⟩ := hpoll s hph heq
    have hdiff : ((step env s).sb_size ≠ (step env s).lastsize ↔
        ∃ sz, (sys_fstat env s.w s.input).1 = some sz ∧ sz ≠ s.lastsize) := by
      rw [h6, h2]
      cases hr : (sys_fstat env s.w s.input).1 with
      | none => simp [heq]
      | some sz => simp
    have hrun : run env 2 s = step env (step env s) := rfl
    refine ⟨h1, h2, hdiff, ?_, ?_, ?_⟩
    · rw [hrun, hleave _ h1]
      exact hdiff
    · intro sz hsz hne
      have hd : (step env s).sb_size ≠ (step env s).lastsize := hdiff.mpr ⟨sz, hsz, hne⟩
      have hs : (step env s).sb_size = sz := by rw [h6, hsz]; rfl
      rw [hrun, step_polling_ne env _ h1 hd]
      exact ⟨hs, h4, h3⟩
    · intro hnone
      have hs : (step env s).sb_size = s.sb_size := by rw [h6, hnone]; rfl
      refine ⟨hs, h5, h4, ?_⟩
      rw [hrun]
      exact (hpoll _ h1 (by rw [hs, h2, heq])).1

set_option maxRecDepth 100000 in
/-- An instance of `growth_detection`: an empty file that has grown to 5 bytes
is noticed by the next size check. -/
theorem growth_detection_witness :
    idleExample.phase = .polling ∧ idleExample.sb_size = idleExample.lastsize ∧
    (run fiveBytes 2 idleExample).phase = .growth ∧
    (run fiveBytes 2 idleExample).lastsize = 5 :=
  have h := (growth_detection fiveBytes idleExample (by decide)).2.2.2.2 (by decide)
  ⟨by decide, by decide, h.2.2.2.1.mpr ⟨5, by decide, by decide⟩,
    (h.2.2.2.2.1 5 (by decide) (by decide)).1⟩

/-! ## The write-all loop -/

theorem step_writing_done (env : Env) (s : State) (hph : s.phase = .writing)
    (hn : ¬ s.n > 0) : step env s = { s with phase := .draining } := by
  unfold step
  rw [hph]
  simp only [hn, if_false]

theorem step_writing_more (env : Env) (s : State) (hph : s.phase = .writing)
    (hn : s.n > 0) :
    step env s =
      if (sys_write env s.w s.buffer s.n).1 > 0 then
        { s with written := (sys_write env s.w s.buffer s.n).1,
                 n := s.n - (sys_write env s.w s.buffer s.n).1,
                 w := (sys_write env s.w s.buffer s.n).2 }
      else if (sys_write env s.w s.buffer s.n).1 < 0 then
        exitState { s with written := (sys_write env s.w s.buffer s.n).1 }
          (ioerror s.fn (strerror (sys_write env s.w s.buffer s.n).2.errno)
            (sys_write env s.w s.buffer s.n).2)
      else { s with written := (sys_write env s.w s.buffer s.n).1,
                    w := (sys_write env s.w s.buffer s.n).2 } := by
  unfold step
  rw [hph]
  simp only [hn, if_true]

theorem sys_write_accepted (env : Env) (w : World) (buffer : List Byte) (count : Int)
    (h : 0 ≤ env.write w.writes.length count) :
    sys_write env w buffer count =
      (env.write w.writes.length count,
        { w with out := w.out ++ (buffer.take count.toNat).take
                   (env.write w.writes.length count).toNat,
                 writes := w.writes ++ [env.write w.writes.length count] }) := by
  unfold sys_write
  simp only [not_lt.mpr h, if_false]

theorem write_all_loop (env : Env)
    (hacc : ∀ k c, 0 < c → 1 ≤ env.write k c ∧ env.write k c ≤ c) (m : Nat) :
    ∀ s : State, s.phase = .writing → s.n = (m : Int) →
    ∃ (j : Nat) (ws : List Int), j ≤ m ∧
      (run env j s).phase = .writing ∧ (run env j s).n = 0 ∧
      (run env j s).w.writes = s.w.writes ++ ws ∧ ws.length = j ∧ ws.sum = (m : Int) ∧
      (∀ x ∈ ws, 1 ≤ x) ∧
      (∀ i, i ≤ j → (run env i s).phase = .writing ∧ 0 ≤ (run env i s).n) := by
  induction m using Nat.strong_induction_on with
  | _ m ih =>
    intro s hph hn
    by_cases hm : m = 0
    · subst hm
      refine ⟨0, [], le_refl 0, hph, by simpa using hn, by simp [run], rfl, by simp,
        by simp, ?_⟩
      intro i hi
      have : i = 0 := by omega
      subst this
      exact ⟨hph, by simp [run, hn]⟩
    · have hpos : s.n > 0 := by omega
      obtain ⟨h1, h2⟩ := hacc s.w.writes.length s.n hpos
      have hw := sys_write_accepted env s.w s.buffer s.n (by omega)
      have hstep := step_writing_more env s hph hpos
      rw [hw] at hstep
      simp only [gt_iff_lt, show (0 : Int) < env.write s.w.writes.length s.n from by omega,
        if_true] at hstep
      obtain ⟨j, ws, hj, hp, hz, hlog, hlen, hsum, hall, hinv⟩ :=
        ih (s.n - env.write s.w.writes.length s.n).toNat (by omega) (step env s)
          (by rw [hstep]; exact hph) (by rw [hstep]; simp only []; omega)
      refine ⟨j + 1, env.write s.w.writes.length s.n :: ws, by omega, hp, hz, ?_, by simp [hlen],
        ?_, ?_, ?_⟩
      · rw [run, hlog, hstep]
        simp
      · rw [List.sum_cons, hsum]
        omega
      · intro x hx
        rcases List.mem_cons.mp hx with hx | hx
        · rw [hx]; exact h1
        · exact hall x hx
      · intro i hi
        cases i with
        | zero => exact ⟨hph, by simp only [run]; omega⟩
        | succ i => exact hinv i (by omega)

/-- C9. Write-all loop termination: entered with a chunk of `n ≥ 1` bytes
(in particular `n ≤ 1024`), when every write accepts between 1 and the
remaining count of bytes, the write-all loop makes `j` writes with
`1 ≤ j ≤ n` and then exits to the drain loop; the accepted byte counts `ws`
of those writes sum to exactly `n`, and the remaining count is never
negative on the way and is 0 at the end. -/
theorem write_all_terminates (env : Env) (s : State) (hph : s.phase = .writing)
    (hn : 1 ≤ s.n)
    (hacc : ∀ k c, 0 < c → 1 ≤ env.write k c ∧ env.write k c ≤ c) :
    ∃ (j : Nat) (ws : List Int), 1 ≤ j ∧ (j : Int) ≤ s.n ∧
      (run env j s).phase = .writing ∧ (run env j s).n = 0 ∧
      (run env (j + 1) s).phase = .draining ∧
      (run env (j + 1) s).w.writes = s.w.writes ++ ws ∧
      ws.length = j ∧ ws.sum = s.n ∧ (∀ x ∈ ws, 1 ≤ x) ∧
      (∀ i, i ≤ j → (run env i s).phase = .writing ∧ 0 ≤ (run env i s).n) := by
  obtain ⟨j, ws, hj, hp, hz, hlog, hlen, hsum, hall, hinv⟩ :=
    write_all_loop env hacc s.n.toNat s hph (by omega)
  have hdone := step_writing_done env (run env j s) hp (by omega)
  have hj1 : 1 ≤ j := by
    cases ws with
    | nil => simp at hsum; omega
    | cons x xs => simp at hlen; omega
  refine ⟨j, ws, hj1, by omega, hp, hz, ?_, ?_, hlen, by omega, hall, hinv⟩
  · rw [run_succ, hdone]
  · rw [run_succ, hdone]
    exact hlog

/-- Witness for C9: a sink that accepts one byte per write. -/
theorem write_all_terminates_witness :
    writingExample.phase = .writing ∧ 1 ≤ writingExample.n ∧
    (∀ (k : Nat) (c : Int), 0 < c → 1 ≤ slowSink.write k c ∧
      slowSink.write k c ≤ c) ∧
    ∃ (j : Nat) (ws : List Int), 1 ≤ j ∧ (j : Int) ≤ writingExample.n ∧
      (run slowSink j writingExample).phase = .writing ∧
      (run slowSink j writingExample).n = 0 ∧
      (run slowSink (j + 1) writingExample).phase = .draining ∧
      (run slowSink (j + 1) writingExample).w.writes =
        writingExample.w.writes ++ ws ∧
      ws.length = j ∧ ws.sum = writingExample.n ∧ (∀ x ∈ ws, 1 ≤ x) ∧
      (∀ i, i ≤ j → (run slowSink i writingExample).phase = .writing ∧
        0 ≤ (run slowSink i writingExample).n) :=
  have hacc : ∀ (k : Nat) (c : Int), 0 < c → 1 ≤ slowSink.write k c ∧
      slowSink.write k c ≤ c := by
    intro k c hc
    simp only [slowSink, Env.static]
    omega
  ⟨rfl, by decide, hacc,
    write_all_terminates slowSink writingExample rfl (by decide) hacc⟩

/-! ## Outcomes of the drain loop -/

theorem step_draining (env : Env) (s : State) (hph : s.phase = .draining) :
    step env s =
      if (sys_select env s.w).1 > 0 then
        if (sys_select env s.w).2.1 = true then
          if (sys_read env (sys_select env s.w).2.2 s.input s.buffer BUFSZ).1 > 0 then
            { s with n := (sys_read env (sys_select env s.w).2.2 s.input s.buffer BUFSZ).1,
                     buffer := (sys_read env (sys_select env s.w).2.2 s.input s.buffer BUFSZ).2.1,
                     w := (sys_read env (sys_select env s.w).2.2 s.input s.buffer BUFSZ).2.2,
                     phase := .writing }
          else if (sys_read env (sys_select env s.w).2.2 s.input s.buffer BUFSZ).1 < 0 then
            exitState
              { s with n := (sys_read env (sys_select env s.w).2.2 s.input s.buffer BUFSZ).1,
                       buffer :=
                         (sys_read env (sys_select env s.w).2.2 s.input s.buffer BUFSZ).2.1 }
              (ioerror s.fn
                (strerror (sys_read env (sys_select env s.w).2.2 s.input s.buffer BUFSZ).2.2.errno)
                (sys_read env (sys_select env s.w).2.2 s.input s.buffer BUFSZ).2.2)
          else
            { s with n := (sys_read env (sys_select env s.w).2.2 s.input s.buffer BUFSZ).1,
                     buffer := (sys_read env (sys_select env s.w).2.2 s.input s.buffer BUFSZ).2.1,
                     w := (sys_read env (sys_select env s.w).2.2 s.input s.buffer BUFSZ).2.2,
                     phase := .polling }
        else { s with n := (sys_select env s.w).1, w := (sys_select env s.w).2.2 }
      else { s with n := (sys_select env s.w).1, w := (sys_select env s.w).2.2 } := by
  unfold step
  rw [hph]

theorem ioerror_code (s m : String) (w : World) : (ioerror s m w).code = 1 := by
  unfold ioerror
  split <;> rfl

theorem sys_read_out (env : Env) (w : World) (fd : Int) (buffer : List Byte) (count : Nat) :
    (sys_read env w fd buffer count).2.2.out = w.out ∧
    (sys_read env w fd buffer count).2.2.err = w.err := by
  unfold sys_read
  split
  · exact ⟨rfl, rfl⟩
  · split <;> exact ⟨rfl, rfl⟩

theorem sys_select_out (env : Env) (w : World) :
    (sys_select env w).2.2.out = w.out ∧ (sys_select env w).2.2.err = w.err := by
  simp only [sys_select]
  split <;> exact ⟨rfl, rfl⟩

/-- C7. Drain outcome classification.  From a state of Draining (the head of
the drain loop or of the write-all loop): a read that returns zero bytes
leads back to size polling with the output and the diagnostics unchanged; a
read that returns a negative count and a write that returns a negative count
end the process with exit status 1; the process ends in no other case, and
then always with status 1; polling is resumed in no other case than a zero
read; and in every remaining case, among them a positive read and a positive
write, the loop stays in Draining. -/
theorem drain_outcome (env : Env) (s : State) (hd : s.inDraining) :
    (s.phase = .draining → (sys_select env s.w).1 > 0 → (sys_select env s.w).2.1 = true →
      (sys_read env (sys_select env s.w).2.2 s.input s.buffer BUFSZ).1 = 0 →
      (step env s).phase = .polling ∧ (step env s).w.out = s.w.out ∧
      (step env s).w.err = s.w.err) ∧
    (s.phase = .draining → (sys_select env s.w).1 > 0 → (sys_select env s.w).2.1 = true →
      (sys_read env (sys_select env s.w).2.2 s.input s.buffer BUFSZ).1 < 0 →
      (step env s).phase = .exited 1) ∧
    (s.phase = .writing → s.n > 0 → (sys_write env s.w s.buffer s.n).1 < 0 →
      (step env s).phase = .exited 1) ∧
    (∀ c, (step env s).phase = .exited c → c = 1 ∧
      ((s.phase = .draining ∧ (sys_select env s.w).1 > 0 ∧ (sys_select env s.w).2.1 = true ∧
          (sys_read env (sys_select env s.w).2.2 s.input s.buffer BUFSZ).1 < 0) ∨
        (s.phase = .writing ∧ s.n > 0 ∧ (sys_write env s.w s.buffer s.n).1 < 0))) ∧
    ((step env s).phase = .polling →
      s.phase = .draining ∧ (sys_select env s.w).1 > 0 ∧ (sys_select env s.w).2.1 = true ∧
        (sys_read env (sys_select env s.w).2.2 s.input s.buffer BUFSZ).1 = 0) ∧
    (s.phase = .draining → (sys_select env s.w).1 > 0 → (sys_select env s.w).2.1 = true →
      (sys_read env (sys_select env s.w).2.2 s.input s.buffer BUFSZ).1 > 0 →
      (step env s).phase = .writing) ∧
    (s.phase = .writing → s.n > 0 → (sys_write env s.w s.buffer s.n).1 > 0 →
      (step env s).phase = .writing) ∧
    ((step env s).inDraining ∨ (step env s).phase = .polling ∨
      (step env s).phase = .exited 1) := by
  rcases hd with hph | hph
  · have hs := step_draining env s hph
    have hc := ioerror_code s.fn
      (strerror (sys_read env (sys_select env s.w).2.2 s.input s.buffer BUFSZ).2.2.errno)
      (sys_read env (sys_select env s.w).2.2 s.input s.buffer BUFSZ).2.2
    have ho := sys_read_out env (sys_select env s.w).2.2 s.input s.buffer BUFSZ
    have hso := sys_select_out env s.w
    by_cases h1 : (sys_select env s.w).1 > 0
    · by_cases h2 : (sys_select env s.w).2.1 = true
      · rcases lt_trichotomy
          (sys_read env (sys_select env s.w).2.2 s.input s.buffer BUFSZ).1 0 with h3 | h3 | h3
        · have hng : ¬ (sys_read env (sys_select env s.w).2.2 s.input s.buffer BUFSZ).1 > 0 := by
            omega
          simp only [h1, h2, hng, h3, if_true, if_false] at hs
          have hp : (step env s).phase = .exited 1 := by rw [hs]; simp [exitState, hc]
          simp [hp, hph, h1, h2, h3, hng, State.inDraining]
          omega
        · have hng : ¬ (sys_read env (sys_select env s.w).2.2 s.input s.buffer BUFSZ).1 > 0 := by
            omega
          have hnl : ¬ (sys_read env (sys_select env s.w).2.2 s.input s.buffer BUFSZ).1 < 0 := by
            omega
          simp only [h1, h2, hng, hnl, if_true, if_false] at hs
          have hp : (step env s).phase = .polling := by rw [hs]
          have hout : (step env s).w.out = s.w.out := by rw [hs]; simp only []; rw [ho.1, hso.1]
          have herr : (step env s).w.err = s.w.err := by rw [hs]; simp only []; rw [ho.2, hso.2]
          simp [hp, hph, h1, h2, h3, hout, herr, State.inDraining]
        · have hnl : ¬ (sys_read env (sys_select env s.w).2.2 s.input s.buffer BUFSZ).1 < 0 := by
            omega
          simp only [h1, h2, h3, if_true] at hs
          have hp : (step env s).phase = .writing := by rw [hs]
          simp [hp, hph, h1, h2, h3, State.inDraining]
          omega
      · simp only [h1, h2, if_true, if_false] at hs
        have hp : (step env s).phase = .draining := by rw [hs]; exact hph
        simp [hp, hph, h1, h2, State.inDraining]
    · simp only [h1, if_false] at hs
      have hp : (step env s).phase = .draining := by rw [hs]; exact hph
      simp [hp, hph, h1, State.inDraining]
  · by_cases hn : s.n > 0
    · have hs := step_writing_more env s hph hn
      have hc := ioerror_code s.fn (strerror (sys_write env s.w s.buffer s.n).2.errno)
        (sys_write env s.w s.buffer s.n).2
      rcases lt_trichotomy (sys_write env s.w s.buffer s.n).1 0 with h3 | h3 | h3
      · have hng : ¬ (sys_write env s.w s.buffer s.n).1 > 0 := by omega
        simp only [hng, h3, if_true, if_false] at hs
        have hp : (step env s).phase = .exited 1 := by rw [hs]; simp [exitState, hc]
        simp [hp, hph, hn, h3, State.inDraining]
        omega
      · have hng : ¬ (sys_write env s.w s.buffer s.n).1 > 0 := by omega
        have hnl : ¬ (sys_write env s.w s.buffer s.n).1 < 0 := by omega
        simp only [hng, hnl, if_false] at hs
        have hp : (step env s).phase = .writing := by rw [hs]; exact hph
        simp [hp, hph, hn, h3, State.inDraining]
      · simp only [h3, if_true] at hs
        have hp : (step env s).phase = .writing := by rw [hs]; exact hph
        simp [hp, hph, hn, h3, State.inDraining]
        omega
    · have hs := step_writing_done env s hph hn
      have hp : (step env s).phase = .draining := by rw [hs]
      simp [hp, hph, hn, State.inDraining]

set_option maxRecDepth 100000 in
/-- Witness for C7: a read that returns zero bytes at the end of the file. -/
theorem drain_outcome_witness :
    drainingExample.inDraining ∧
    (step threeBytes drainingExample).phase = .polling ∧
    (step threeBytes drainingExample).w.out = drainingExample.w.out ∧
    (step threeBytes drainingExample).w.err = drainingExample.w.err :=
  ⟨Or.inl rfl,
    (drain_outcome threeBytes drainingExample (Or.inl rfl)).1
      rfl (by decide) (by decide) (by decide)⟩

/-! ## The sampled size outside the polling loop -/

/-- Outside the polling loop neither the sampled size nor the last-recorded
size is written: the refresh, the drain loop and the write-all loop leave both
as they are. -/
theorem step_sizes_frame (env : Env) (s : State) (h : s.phase ≠ .polling) :
    (step env s).sb_size = s.sb_size ∧ (step env s).lastsize = s.lastsize := by
  cases hph : s.phase with
  | polling => exact absurd hph h
  | growth =>
    unfold step
    rw [hph]
    simp only []
    split <;> exact ⟨rfl, rfl⟩
  | draining =>
    rw [step_draining env s hph]
    split_ifs <;> exact ⟨rfl, rfl⟩
  | writing =>
    by_cases hn : s.n > 0
    · rw [step_writing_more env s hph hn]
      split_ifs <;> exact ⟨rfl, rfl⟩
    · rw [step_writing_done env s hph hn]
      exact ⟨rfl, rfl⟩
  | exited c =>
    rw [step_exited env s c hph]
    exact ⟨rfl, rfl⟩

/-- In every state that a run of `main` reaches outside the polling loop the
sampled size equals the last-recorded size. -/
theorem sizes_agree_outside_polling (env : Env) (argv : List String) (w : World) (k : Nat) :
    (run env k (start env argv w)).phase ≠ .polling →
      (run env k (start env argv w)).sb_size = (run env k (start env argv w)).lastsize := by
  induction k with
  | zero =>
    intro h
    have h0 : (start env argv w).phase ≠ .polling := h
    have hl := start_lastsize env argv w
    rw [show run env 0 (start env argv w) = start env argv w from rfl, hl]
    unfold start at h0 ⊢
    simp only [] at h0 ⊢
    split
    · rfl
    · rename_i hargc
      simp only [hargc, if_false] at h0
      split
      · rfl
      · rename_i hneg
        simp only [hneg, if_false] at h0
        split at h0 <;> exact absurd rfl h0
  | succ k ih =>
    intro h
    rw [run_succ] at h ⊢
    by_cases hp : (run env k (start env argv w)).phase = .polling
    · by_cases heq : (run env k (start env argv w)).sb_size
          = (run env k (start env argv w)).lastsize
      · have := step_polling_eq env _ hp heq
        rw [this] at h
        exfalso
        apply h
        split <;> exact hp
      · rw [step_polling_ne env _ hp heq]
    · obtain ⟨h1, h2⟩ := step_sizes_frame env _ hp
      rw [h1, h2]
      exact ih hp

/-- Whenever a run of `main` comes back to the polling loop from the drain
loop, the sampled size equals the last-recorded size: the loop is never left
again without a size query that reports a different size. -/
theorem polling_reentry_sizes (env : Env) (argv : List String) (w : World) (k : Nat)
    (h : (run env k (start env argv w)).phase ≠ .polling) :
    (run env (k + 1) (start env argv w)).sb_size
      = (run env (k + 1) (start env argv w)).lastsize := by
  rw [run_succ]
  obtain ⟨h1, h2⟩ := step_sizes_frame env _ h
  rw [h1, h2]
  exact sizes_agree_outside_polling env argv w k h

/-! ## Seeking: what the functions do when `errno` is clear -/

theorem lookupFd_nonneg (w : World) (fd : Int) (f : OpenFile)
    (h : lookupFd w fd = some f) : ¬ fd < 0 := by
  intro hneg
  simp [lookupFd, hneg] at h

theorem lookupFd_setFd (w : World) (fds : Nat → Option OpenFile) (fd : Int)
    (g : Option OpenFile) (h : ¬ fd < 0) :
    lookupFd { w with fds := setFd fds fd.toNat g } fd = g := by
  simp [lookupFd, h, setFd]

theorem sys_lseek_set (w : World) (fd : Int) (off : Int) (f : OpenFile)
    (h : lookupFd w fd = some f) (hoff : 0 ≤ off) :
    sys_lseek w fd off SEEK_SET =
      (off, { w with fds := setFd w.fds fd.toNat (some { f with pos := off }) }) := by
  unfold sys_lseek
  rw [h]
  simp [SEEK_SET, not_lt.mpr hoff]

theorem sys_lseek_cur (w : World) (fd : Int) (f : OpenFile)
    (h : lookupFd w fd = some f) (hpos : 0 ≤ f.pos) :
    sys_lseek w fd 0 SEEK_CUR = (f.pos, { w with fds := setFd w.fds fd.toNat (some f) }) := by
  unfold sys_lseek
  rw [h]
  simp [SEEK_SET, SEEK_CUR, not_lt.mpr hpos]

theorem sys_lseek_errno (w : World) (fd : Int) (off : Int) (whence : Nat) :
    ((sys_lseek w fd off whence).1 < 0 → (sys_lseek w fd off whence).2.errno ≠ 0) ∧
    (¬ (sys_lseek w fd off whence).1 < 0 → (sys_lseek w fd off whence).2.errno = w.errno) := by
  unfold sys_lseek
  cases hl : lookupFd w fd with
  | none => simp [EBADF]
  | some f =>
    simp only []
    by_cases hw : whence = SEEK_SET ∨ whence = SEEK_CUR
    · simp only [hw, if_true]
      by_cases ht : (if whence = SEEK_SET then off else f.pos + off) < 0
      · simp [ht, EINVAL]
      · simp [ht]
    · simp [hw, EINVAL]

/-- What `ltell` does, in full: it ends the process, with exit status 1,
exactly when its position query fails or `errno` was already set on entry;
otherwise it returns the offset the query reported. -/
theorem ltell_exits_iff (fd : Int) (w : World) :
    ((ltell fd w).exitCode = some 1 ↔ ((sys_lseek w fd 0 SEEK_CUR).1 < 0 ∨ w.errno ≠ 0)) ∧
    ((ltell fd w).exitCode = none ↔ (¬ (sys_lseek w fd 0 SEEK_CUR).1 < 0 ∧ w.errno = 0)) ∧
    ((ltell fd w).exitCode = none → (ltell fd w).value = some (sys_lseek w fd 0 SEEK_CUR).1) := by
  have he := sys_lseek_errno w fd 0 SEEK_CUR
  unfold ltell
  rcases hr : sys_lseek w fd 0 SEEK_CUR with ⟨pos, w1⟩
  rw [hr] at he
  simp only [] at he ⊢
  have hcode : ∀ m, (ioerror "" m w1).code = 1 := fun m => ioerror_code "" m w1
  by_cases hneg : pos < 0
  · have h1 := he.1 hneg
    simp [h1, Res.exitCode, Res.value, hcode, hneg]
  · have h1 := he.2 hneg
    by_cases h0 : w.errno = 0
    · have : w1.errno = 0 := by rw [h1, h0]
      simp [this, Res.exitCode, Res.value, hneg, h0]
    · have : w1.errno ≠ 0 := by rw [h1]; exact h0
      simp [this, Res.exitCode, Res.value, hcode, hneg, h0]

theorem ltell_ok (fd : Int) (w : World) (f : OpenFile)
    (h : lookupFd w fd = some f) (hpos : 0 ≤ f.pos) (herr : w.errno = 0) :
    ltell fd w = .ok f.pos { w with fds := setFd w.fds fd.toNat (some f) } := by
  unfold ltell
  rw [sys_lseek_cur w fd f h hpos]
  simp [herr]

theorem clip_bounds (o s : Int) (hs : 0 ≤ s) : 0 ≤ clip o s ∧ clip o s ≤ s := by
  unfold clip
  omega

theorem clip_eq (o s : Int) (hs : 0 ≤ s) :
    (if (if o < 0 then 0 else o) > s then s else (if o < 0 then 0 else o)) = clip o s := by
  unfold clip
  split_ifs <;> omega

/-- What `absseek` does on an open handle of a file of `sz ≥ 0` bytes: it
repositions the handle to `max 0 (min o sz)` and returns that offset, which
lies in `[0, sz]`, whatever `errno` holds on entry. -/
theorem absseek_clips (env : Env) (w : World) (fd : Int) (f : OpenFile) (o sz : Int)
    (h : lookupFd w fd = some f) (hst : env.stat w.nstat = some sz) (hsz : 0 ≤ sz) :
    (absseek env fd o w).value = some (max 0 (min o sz)) ∧
    lookupFd (absseek env fd o w).world fd = some { f with pos := max 0 (min o sz) } ∧
    0 ≤ max 0 (min o sz) ∧ max 0 (min o sz) ≤ sz := by
  have hb := clip_bounds o sz hsz
  have hfs : fsize env fd w = .ok sz { w with nstat := w.nstat + 1 } := by
    simp [fsize, sys_fstat, h, hst]
  have hl : lookupFd { w with nstat := w.nstat + 1 } fd = some f := h
  unfold absseek
  rw [hfs]
  simp only []
  rw [clip_eq o sz hsz, sys_lseek_set _ fd (clip o sz) f hl hb.1]
  refine ⟨rfl, ?_, hb.1, hb.2⟩
  exact lookupFd_setFd _ _ fd _ (lookupFd_nonneg w fd f h)

theorem wrapOff_id (x : Int) (h1 : -9223372036854775808 ≤ x) (h2 : x < 9223372036854775808) :
    wrapOff x = x := by
  unfold wrapOff
  omega

/-- What `relseek` does on an open handle at offset `now` of a file of
`sz ≥ 0` bytes when `errno` is clear on entry and `now + d` is in the range of
`off_t`: it repositions the handle to `max 0 (min (now + d) sz)` and returns
that offset, which lies in `[0, sz]`. -/
theorem relseek_clips (env : Env) (w : World) (fd : Int) (f : OpenFile) (d sz : Int)
    (h : lookupFd w fd = some f) (hpos : 0 ≤ f.pos) (herr : w.errno = 0)
    (hst : env.stat w.nstat = some sz) (hsz : 0 ≤ sz)
    (h1 : -9223372036854775808 ≤ f.pos + d) (h2 : f.pos + d < 9223372036854775808) :
    (relseek env fd d w).value = some (max 0 (min (f.pos + d) sz)) ∧
    lookupFd (relseek env fd d w).world fd = some { f with pos := max 0 (min (f.pos + d) sz) } ∧
    0 ≤ max 0 (min (f.pos + d) sz) ∧ max 0 (min (f.pos + d) sz) ≤ sz := by
  have hb := clip_bounds (f.pos + d) sz hsz
  have hnn := lookupFd_nonneg w fd f h
  have hl1 : lookupFd { w with fds := setFd w.fds fd.toNat (some f) } fd = some f :=
    lookupFd_setFd w w.fds fd (some f) hnn
  have hfs : fsize env fd { w with fds := setFd w.fds fd.toNat (some f) } =
      .ok sz { w with fds := setFd w.fds fd.toNat (some f), nstat := w.nstat + 1 } := by
    simp [fsize, sys_fstat, hl1, hst]
  have hl2 : lookupFd { w with fds := setFd w.fds fd.toNat (some f), nstat := w.nstat + 1 } fd
      = some f := hl1
  unfold relseek
  rw [ltell_ok fd w f h hpos herr]
  simp only []
  rw [hfs]
  simp only []
  rw [wrapOff_id _ h1 h2, clip_eq (f.pos + d) sz hsz, sys_lseek_set _ fd _ f hl2 hb.1]
  refine ⟨rfl, ?_, hb.1, hb.2⟩
  exact lookupFd_setFd _ _ fd _ hnn

theorem freeFd_spec (w : World) (k : Nat) (hk : k < OPEN_MAX) (hfree : w.fds k = none) :
    ∃ j, freeFd w = some j ∧ w.fds j = none := by
  unfold freeFd
  cases hf : (List.range OPEN_MAX).find? (fun k => (w.fds k).isNone) with
  | none =>
    rw [List.find?_eq_none] at hf
    have := hf k (List.mem_range.mpr hk)
    simp [hfree] at this
  | some j =>
    have := List.find?_some hf
    exact ⟨j, rfl, by simpa using this⟩

/-- What `reopen` does on an open handle at offset `p` when `errno` is clear
on entry: it closes the old handle; when the new open succeeds it returns a
handle on the path and mode given whose position is `p`; when the new open
fails it ends the process with exit status 1 and the message that the file
could not be opened, naming the path. -/
theorem reopen_preserves_position (env : Env) (w : World) (fd : Int) (f : OpenFile)
    (fn : String) (md : Nat)
    (h : lookupFd w fd = some f) (hpos : 0 ≤ f.pos) (herr : w.errno = 0)
    (hmax : fd.toNat < OPEN_MAX) :
    (env.opens w.nopen = true →
      ∃ fd1 : Int, (reopen env fd fn md w).value = some fd1 ∧
        (reopen env fd fn md w).exitCode = none ∧
        lookupFd (reopen env fd fn md w).world fd1
          = some { path := fn, mode := md, pos := f.pos } ∧
        (fd1 ≠ fd → lookupFd (reopen env fd fn md w).world fd = none)) ∧
    (env.opens w.nopen = false →
      (reopen env fd fn md w).value = none ∧
      (reopen env fd fn md w).exitCode = some 1 ∧
      (reopen env fd fn md w).world.err =
        w.err ++ ["bintail: could not open file '" ++ fn ++ "': " ++ strerror ENOENT] ∧
      lookupFd (reopen env fd fn md w).world fd = none) := by
  have hnn := lookupFd_nonneg w fd f h
  have hl1 : lookupFd { w with fds := setFd w.fds fd.toNat (some f) } fd = some f :=
    lookupFd_setFd w w.fds fd (some f) hnn
  have hclose : sys_close { w with fds := setFd w.fds fd.toNat (some f) } fd =
      (0, { w with fds := setFd (setFd w.fds fd.toNat (some f)) fd.toNat none }) := by
    unfold sys_close
    rw [hl1]
  constructor
  · intro hopen
    obtain ⟨j, hj, hjfree⟩ := freeFd_spec
      { w with fds := setFd (setFd w.fds fd.toNat (some f)) fd.toNat none } fd.toNat hmax
      (by simp [setFd])
    have hjn : ¬ ((j : Nat) : Int) < 0 := by omega
    have hsopen : sys_open env
        { w with fds := setFd (setFd w.fds fd.toNat (some f)) fd.toNat none } fn md =
        ((j : Int), { w with
          fds := setFd (setFd (setFd w.fds fd.toNat (some f)) fd.toNat none) j
            (some { path := fn, mode := md, pos := 0 }),
          nopen := w.nopen + 1 }) := by
      unfold sys_open
      simp only [hopen, if_true, hj]
    have hl3 : lookupFd { w with
          fds := setFd (setFd (setFd w.fds fd.toNat (some f)) fd.toNat none) j
            (some { path := fn, mode := md, pos := 0 }),
          nopen := w.nopen + 1 } (j : Int) = some { path := fn, mode := md, pos := 0 } := by
      simp [lookupFd, setFd]
    refine ⟨(j : Int), ?_⟩
    unfold reopen
    rw [ltell_ok fd w f h hpos herr]
    simp only []
    rw [hclose]
    simp only []
    rw [hsopen]
    simp only [hjn, if_false]
    rw [sys_lseek_set _ (j : Int) f.pos _ hl3 hpos]
    refine ⟨rfl, rfl, ?_, ?_⟩
    · simp [Res.world, lookupFd, setFd]
    · intro hne
      have hne2 : fd.toNat ≠ j := by
        intro heq
        apply hne
        omega
      simp [Res.world, lookupFd, setFd, hnn, hne2]
  · intro hopen
    have hsopen : sys_open env
        { w with fds := setFd (setFd w.fds fd.toNat (some f)) fd.toNat none } fn md =
        (-1, { w with fds := setFd (setFd w.fds fd.toNat (some f)) fd.toNat none,
                      errno := ENOENT, nopen := w.nopen + 1 }) := by
      unfold sys_open
      simp [hopen]
    unfold reopen
    rw [ltell_ok fd w f h hpos herr]
    simp only []
    rw [hclose]
    simp only []
    rw [hsopen]
    simp only [show ((-1 : Int) < 0) from by decide, if_true]
    refine ⟨rfl, rfl, ?_, ?_⟩
    · simp [Res.world, badfile, cerr]
    · simp [Res.world, badfile, cerr, lookupFd, setFd, hnn]

/-! ## The defect in `ltell` and what follows from it -/

set_option maxRecDepth 100000 in
/-- C10, evaluated: with the handle open at offset 5 and `errno` holding
`EINVAL` from an earlier call, the position query of `ltell` succeeds and
reports 5, yet `ltell` ends the process with the fatal I/O error instead of
returning 5. -/
theorem ltell_aborts_on_stale_errno :
    lookupFd (World.following 5 EINVAL) 3 = some { path := "f", mode := O_RDONLY, pos := 5 } ∧
    (sys_lseek (World.following 5 EINVAL) 3 0 SEEK_CUR).1 = 5 ∧
    (ltell 3 (World.following 5 EINVAL)).value = none ∧
    (ltell 3 (World.following 5 EINVAL)).exitCode = some 1 ∧
    (ltell 3 (World.following 5 EINVAL)).world.err = ["bintail: I/O error: Invalid argument"] ∧
    (ltell 3 (World.following 5 0)).value = some 5 := by
  decide

set_option maxRecDepth 100000 in
/-- C1, evaluated: on a file of 10 bytes with the handle at offset 5 and
`errno` holding `EINVAL` from an earlier call, `relseek(fd, 2)` ends the
process in `ltell` and leaves the handle at offset 5, where the claim has it
reposition to 7 and return 7; with `errno` clear it does so, and `absseek`
does clip whatever `errno` holds. -/
theorem relseek_aborts_on_stale_errno :
    clip (5 + 2) 10 = 7 ∧
    (relseek tenBytes 3 2 (World.following 5 EINVAL)).value = none ∧
    (relseek tenBytes 3 2 (World.following 5 EINVAL)).exitCode = some 1 ∧
    lookupFd (relseek tenBytes 3 2 (World.following 5 EINVAL)).world 3
      = some { path := "f", mode := O_RDONLY, pos := 5 } ∧
    (relseek tenBytes 3 2 (World.following 5 0)).value = some 7 ∧
    (absseek tenBytes 3 12 (World.following 5 EINVAL)).value = some 10 := by
  decide

set_option maxRecDepth 100000 in
/-- C6, evaluated: at the first handle refresh of `bintail f -50` the handle is
open at offset 0 and the file can be opened, but `errno` still holds the
`EINVAL` of the failed initial seek; `reopen` ends the process with the I/O
error of `ltell`, without closing the old handle, without opening a new one
and without returning a handle. -/
theorem reopen_aborts_on_stale_errno :
    lookupFd negativeStart.w negativeStart.input
      = some { path := "f", mode := O_RDONLY, pos := 0 } ∧
    negativeStart.w.errno = EINVAL ∧
    (reopen thousandBytes negativeStart.input "f" O_RDONLY negativeStart.w).value = none ∧
    (reopen thousandBytes negativeStart.input "f" O_RDONLY negativeStart.w).exitCode
      = some 1 ∧
    (reopen thousandBytes negativeStart.input "f" O_RDONLY negativeStart.w).world.err
      = ["bintail: I/O error: Invalid argument"] ∧
    lookupFd (reopen thousandBytes negativeStart.input "f" O_RDONLY negativeStart.w).world
      negativeStart.input = some { path := "f", mode := O_RDONLY, pos := 0 } ∧
    (reopen thousandBytes negativeStart.input "f" O_RDONLY negativeStart.w).world.nopen
      = negativeStart.w.nopen := by
  decide

set_option maxRecDepth 100000 in
/-- C3, evaluated: `bintail f -50` on a file of 1000 bytes, every system call
but the initial seek succeeding.  The initial seek fails and leaves the
handle at offset 0; the size check sees 1000 bytes; the first handle refresh
then ends the process with exit status 1 in `ltell`, and no byte of the file
is ever delivered to the output sink. -/
theorem negative_offset_run_aborts :
    atol "-50" = -50 ∧
    negativeStart.phase = .polling ∧
    lookupFd negativeStart.w negativeStart.input
      = some { path := "f", mode := O_RDONLY, pos := 0 } ∧
    negativeStart.sb_size = 1000 ∧
    (run thousandBytes 1 negativeStart).phase = .growth ∧
    (run thousandBytes 2 negativeStart).phase = .exited 1 ∧
    (run thousandBytes 2 negativeStart).w.err = ["bintail: I/O error: Invalid argument"] ∧
    ∀ k, (run thousandBytes (2 + k) negativeStart).w.out = [] := by
  refine ⟨by decide, by decide, by decide, by decide, by decide, by decide, by decide, ?_⟩
  intro k
  have hex : (run thousandBytes 2 negativeStart).phase = .exited 1 := by decide
  rw [run_add, run_exited _ k _ 1 hex]
  decide

set_option maxRecDepth 100000 in
/-- C8, evaluated: `bintail f` on an empty file; the first size query of the
polling loop fails and the bytes 1, 2, 3, 4, 5 are appended afterwards.  The
failed query prints the warning, changes neither size and leaves the loop in
Idle-Polling, but it also leaves its error code in `errno`.  The next query
reports 5 bytes, the loop is left with the last-recorded size set to 5, and
the handle refresh that follows ends the process with exit status 1 in
`ltell`, with the error text of the failed `fstat`: no byte is ever output.
On the same file without the failed query the five bytes are output. -/
theorem failed_size_query_ends_process :
    failedPollStart.phase = .polling ∧ failedPollStart.lastsize = 0 ∧
    failedPollStart.sb_size = 0 ∧ failedPollStart.w.errno = 0 ∧
    (sys_fstat failedPoll failedPollStart.w failedPollStart.input).1 = none ∧
    (run failedPoll 1 failedPollStart).phase = .polling ∧
    (run failedPoll 1 failedPollStart).sb_size = 0 ∧
    (run failedPoll 1 failedPollStart).w.errno = EIOERR ∧
    (run failedPoll 1 failedPollStart).w.err
      = ["bintail: fstat() failed (Input/output error), tailing may not work."] ∧
    (run failedPoll 2 failedPollStart).phase = .polling ∧
    (run failedPoll 2 failedPollStart).sb_size = 5 ∧
    (run failedPoll 3 failedPollStart).phase = .growth ∧
    (run failedPoll 3 failedPollStart).lastsize = 5 ∧
    (run failedPoll 4 failedPollStart).phase = .exited 1 ∧
    (run failedPoll 4 failedPollStart).w.err
      = ["bintail: fstat() failed (Input/output error), tailing may not work.",
         "bintail: I/O error: Input/output error"] ∧
    (∀ k, (run failedPoll (4 + k) failedPollStart).w.out = []) ∧
    (run grownToFive 4 emptyStart).phase = .writing ∧
    (run grownToFive 5 emptyStart).w.out = [1, 2, 3, 4, 5] := by
  have hex : (run failedPoll 4 failedPollStart).phase = .exited 1 := by decide
  have hout : ∀ k, (run failedPoll (4 + k) failedPollStart).w.out = [] := by
    intro k
    rw [run_add, run_exited _ k _ 1 hex]
    decide
  and_intros
  all_goals first | exact hout | decide

/-! ## The starting offset -/

/-- What the initial seek of `main` does with a start-offset `o`: when the
file is opened, the handle is at `o` if `o ≥ 0`, also when `o` exceeds the size
of the file (offsets that exceed what the file system accepts are outside the
model of `lseek`), and at 0 if `o < 0`, in which case the seek has failed and
left `EINVAL` in `errno`. -/
theorem start_position (env : Env) (argv : List String) (w : World) (j : Nat)
    (hargc : argv.length = 3) (hopen : env.opens w.nopen = true) (hfree : freeFd w = some j) :
    (start env argv w).phase = .polling ∧
    (start env argv w).input = (j : Int) ∧
    lookupFd (start env argv w).w (j : Int) =
      some { path := argv.getD 1 "", mode := O_RDONLY,
             pos := if atol (argv.getD 2 "") < 0 then 0 else atol (argv.getD 2 "") } ∧
    (atol (argv.getD 2 "") < 0 → (start env argv w).w.errno ≠ 0) := by
  unfold start
  generalize argv.getD 1 "" = fn
  generalize atol (argv.getD 2 "") = o
  have hjn : ¬ ((j : Nat) : Int) < 0 := by omega
  have hsopen : sys_open env w fn O_RDONLY =
      ((j : Int), { w with
        fds := setFd w.fds j (some { path := fn, mode := O_RDONLY, pos := 0 }),
        nopen := w.nopen + 1 }) := by
    unfold sys_open
    simp only [hopen, if_true, hfree]
  have hl0 : lookupFd { w with
        fds := setFd w.fds j (some { path := fn, mode := O_RDONLY, pos := 0 }),
        nopen := w.nopen + 1 } (j : Int) = some { path := fn, mode := O_RDONLY, pos := 0 } := by
    simp [lookupFd, setFd, hjn]
  have hfst : ∀ (v : World) (fd : Int), (sys_fstat env v fd).2.fds = v.fds :=
    fun v fd => (sys_fstat_fds env v fd).1
  have hferr : ∀ (v : World) (fd : Int) (g : OpenFile), lookupFd v fd = some g →
      v.errno ≠ 0 → (sys_fstat env v fd).2.errno ≠ 0 := by
    intro v fd g hg hv
    unfold sys_fstat
    rw [hg]
    simp only []
    split
    · exact hv
    · simp [EIOERR]
  simp only [hargc, hsopen, hjn, if_false, if_true]
  simp only [show ¬ ((3 : Nat) < 2 ∨ (3 : Nat) > 3) from by decide, if_false]
  by_cases ho : o < 0
  · have hseek : sys_lseek { w with
          fds := setFd w.fds j (some { path := fn, mode := O_RDONLY, pos := 0 }),
          nopen := w.nopen + 1 } (j : Int) o SEEK_SET =
        (-1, { w with
          fds := setFd w.fds j (some { path := fn, mode := O_RDONLY, pos := 0 }),
          nopen := w.nopen + 1, errno := EINVAL }) := by
      unfold sys_lseek
      rw [hl0]
      simp [SEEK_SET, ho]
    rw [hseek]
    simp only [ho, if_true]
    have hl : lookupFd { w with
          fds := setFd w.fds j (some { path := fn, mode := O_RDONLY, pos := 0 }),
          nopen := w.nopen + 1, errno := EINVAL } (j : Int)
        = some { path := fn, mode := O_RDONLY, pos := 0 } := hl0
    have h1 := hfst { w with
          fds := setFd w.fds j (some { path := fn, mode := O_RDONLY, pos := 0 }),
          nopen := w.nopen + 1, errno := EINVAL } (j : Int)
    have h2 := hferr _ (j : Int) _ hl (by simp [EINVAL])
    rcases hr : sys_fstat env { w with
          fds := setFd w.fds j (some { path := fn, mode := O_RDONLY, pos := 0 }),
          nopen := w.nopen + 1, errno := EINVAL } (j : Int) with ⟨r, w3⟩
    rw [hr] at h1 h2
    simp only [] at h1 h2
    cases r with
    | none =>
      refine ⟨rfl, rfl, ?_, fun _ => ?_⟩
      · simp [lookupFd, usleep, cerr, h1, setFd, hjn]
      · simpa [usleep, cerr] using h2
    | some sz =>
      refine ⟨rfl, rfl, ?_, fun _ => ?_⟩
      · simp [lookupFd, h1, setFd, hjn]
      · simpa using h2
  · rw [sys_lseek_set _ (j : Int) o _ hl0 (by omega)]
    simp only [ho, if_false]
    split
    · rename_i st w3 heq
      have h1 := congrArg (fun r => r.2.fds) heq
      simp only [hfst] at h1
      refine ⟨rfl, rfl, ?_, fun h => h.elim⟩
      simp [lookupFd, ← h1, setFd, hjn]
    · rename_i w3 heq
      have h1 := congrArg (fun r => r.2.fds) heq
      simp only [hfst] at h1
      refine ⟨rfl, rfl, ?_, fun h => h.elim⟩
      simp [lookupFd, usleep, cerr, ← h1, setFd, hjn]

set_option maxRecDepth 100000 in
/-- C2, evaluated: `bintail f 2000` on a file of 1000 bytes.  The initial seek
places the handle at offset 2000, not at the clipped offset 1000, and the
handle refresh keeps it there for the first read; when 100 bytes are appended
the growth is detected and the handle refreshed again, but the read at offset
2000 finds nothing and none of the appended bytes reaches the output. -/
theorem start_offset_beyond_end_not_clipped :
    atol "2000" = 2000 ∧ clip 2000 1000 = 1000 ∧
    beyondStart.phase = .polling ∧ beyondStart.sb_size = 1000 ∧
    lookupFd beyondStart.w beyondStart.input
      = some { path := "f", mode := O_RDONLY, pos := 2000 } ∧
    (run grownBy100 2 beyondStart).phase = .draining ∧
    lookupFd (run grownBy100 2 beyondStart).w (run grownBy100 2 beyondStart).input
      = some { path := "f", mode := O_RDONLY, pos := 2000 } ∧
    (run grownBy100 6 beyondStart).phase = .draining ∧
    (run grownBy100 6 beyondStart).lastsize = 1100 ∧
    lookupFd (run grownBy100 6 beyondStart).w (run grownBy100 6 beyondStart).input
      = some { path := "f", mode := O_RDONLY, pos := 2000 } ∧
    (run grownBy100 7 beyondStart).phase = .polling ∧
    (run grownBy100 7 beyondStart).w.out = [] := by
  decide

/-! ## The write-all loop and partial writes -/

/-- What one write of the write-all loop does when the sink accepts the whole
count offered: the first `n` bytes of the buffer are appended to the output
and the loop ends with nothing remaining. -/
theorem full_write_relays_chunk (env : Env) (s : State) (hph : s.phase = .writing)
    (hn : s.n > 0) (hfull : env.write s.w.writes.length s.n = s.n) :
    (step env s).w.out = s.w.out ++ s.buffer.take s.n.toNat ∧
    (step env s).n = 0 ∧ (run env 2 s).phase = .draining ∧
    (run env 2 s).w.out = s.w.out ++ s.buffer.take s.n.toNat := by
  have hw := sys_write_accepted env s.w s.buffer s.n (by omega)
  have hstep := step_writing_more env s hph hn
  rw [hw] at hstep
  simp only [hfull, hn, if_true] at hstep
  have hdone := step_writing_done env (step env s) (by rw [hstep]; exact hph)
    (by rw [hstep]; simp)
  have hrun : run env 2 s = step env (step env s) := rfl
  rw [hrun, hdone, hstep]
  simp [List.take_take]

set_option maxRecDepth 100000 in
/-- C4, evaluated: the chunk 10, 20, 30 is read in one `read`; the first write
accepts one byte and the second write, issued again from the start of the
buffer for the two remaining bytes, is accepted whole.  The sink receives
10, 10, 20: the first byte twice, the last byte never. -/
theorem partial_write_repeats_bytes :
    (run appendedThree 4 partialStart).phase = .writing ∧
    (run appendedThree 4 partialStart).n = 3 ∧
    (run appendedThree 4 partialStart).buffer.take 3 = [10, 20, 30] ∧
    (run appendedThree 4 partialStart).w.out = [] ∧
    (run appendedThree 7 partialStart).phase = .draining ∧
    (run appendedThree 7 partialStart).w.writes = [1, 2] ∧
    (run appendedThree 7 partialStart).w.out = [10, 10, 20] ∧
    (run appendedThree 8 partialStart).phase = .polling ∧
    (run appendedThree 8 partialStart).w.out = [10, 10, 20] := by
  decide

end Bintail
